import Mathlib

/-!
Shallow embedding of the rocSPARSE conversion routines under verification:
`rocsparse_nnz_compress_template` (rocsparse_nnz_compress.hpp),
`rocsparse_nnz_impl` (dense nnz counting),
`rocsparse_csx2dense_impl` / `rocsparse_csx2dense_template`, and
`csr2csc_permute_kernel` (csr2csc_device.h).

Machine integers (`rocsparse_int`) are modelled as `Int`; device memory
buffers as `List Int`; null-able pointers as `Option`; the asynchronous
HIP runtime calls (memcpy, memset, malloc, kernel launches) are modelled
by their memory effect, with every HIP call succeeding.  Structured
logging (`log_trace` / `log_bench`) is outside the modelled core, as the
specification places it with the external collaborators.
-/

/-- The rocSPARSE status-code vocabulary. -/
inductive Status where
  | success
  | invalid_handle
  | invalid_pointer
  | invalid_size
  | invalid_value
  | not_implemented
  | arch_mismatch
  | memory_error
deriving DecidableEq, Repr

/-- The execution context (`rocsparse_handle`): pointer mode
(false = host, true = device), hardware wavefront width, and the scratch
buffer capacity in bytes. -/
structure Handle where
  pointerModeDevice : Bool
  wavefrontSize : Int
  bufferSize : Nat
deriving DecidableEq, Repr

/-- The matrix descriptor (`rocsparse_mat_descr`): index base and matrix
type (0 encodes `rocsparse_matrix_type_general`). -/
structure MatDescr where
  base : Int
  type : Int
deriving DecidableEq, Repr

/-- `rocsparse_direction_row`. -/
def rocsparse_direction_row : Int := 0

/-- `rocsparse_direction_column`. -/
def rocsparse_direction_column : Int := 1

/-- `rocsparse_matrix_type_general`. -/
def rocsparse_matrix_type_general : Int := 0

/-- A scalar output write: whether it targeted device memory (per the
handle's pointer mode) and the value written. -/
structure ScalarWrite where
  onDevice : Bool
  value : Int
deriving DecidableEq, Repr

/-- One device-memory store `buf[p] := v` per write record, performed in
list order (models a sequence of kernel-lane stores to one buffer). -/
def scatter (buf : List Int) (ws : List (Nat × Int)) : List Int :=
  ws.foldl (fun b w => b.set w.1 w.2) buf

theorem scatter_nil (buf : List Int) : scatter buf [] = buf := rfl

theorem scatter_cons (buf : List Int) (w : Nat × Int) (ws : List (Nat × Int)) :
    scatter buf (w :: ws) = scatter (buf.set w.1 w.2) ws := rfl

theorem scatter_append (buf : List Int) (ws1 ws2 : List (Nat × Int)) :
    scatter buf (ws1 ++ ws2) = scatter (scatter buf ws1) ws2 := by
  simp [scatter, List.foldl_append]

theorem scatter_length (buf : List Int) (ws : List (Nat × Int)) :
    (scatter buf ws).length = buf.length := by
  induction ws generalizing buf with
  | nil => rfl
  | cons w ws ih => rw [scatter_cons, ih, List.length_set]

theorem scatter_get_of_not_mem (buf : List Int) (ws : List (Nat × Int)) (p : Nat)
    (hp : p ∉ ws.map Prod.fst) :
    (scatter buf ws).get? p = buf.get? p := by
  induction ws generalizing buf with
  | nil => rfl
  | cons w ws ih =>
    simp only [List.map_cons, List.mem_cons, not_or] at hp
    rw [scatter_cons, ih _ hp.2]
    simp [List.get?_eq_getElem?, List.getElem?_set_ne (Ne.symm hp.1)]

theorem scatter_get_of_mem_nodup (buf : List Int) (ws : List (Nat × Int)) (p : Nat) (v : Int)
    (hnd : (ws.map Prod.fst).Nodup) (hmem : (p, v) ∈ ws) (hlt : p < buf.length) :
    (scatter buf ws).get? p = some v := by
  induction ws generalizing buf with
  | nil => cases hmem
  | cons w ws ih =>
    simp only [List.map_cons, List.nodup_cons] at hnd
    rcases List.mem_cons.mp hmem with h | h
    · subst h
      rw [scatter_cons, scatter_get_of_not_mem _ _ _ hnd.1]
      simp [List.get?_eq_getElem?, List.getElem?_set_self', hlt]
    · rw [scatter_cons]
      exact ih _ hnd.2 h (by rwa [List.length_set])

theorem scatter_get_of_mem_const (buf : List Int) (ws : List (Nat × Int)) (p : Nat) (c : Int)
    (hc : ∀ w ∈ ws, w.2 = c) (hmem : p ∈ ws.map Prod.fst) (hlt : p < buf.length) :
    (scatter buf ws).get? p = some c := by
  induction ws generalizing buf with
  | nil => cases hmem
  | cons w ws ih =>
    rw [scatter_cons]
    by_cases hp : p ∈ ws.map Prod.fst
    · exact ih _ (fun x hx => hc x (List.mem_cons_of_mem _ hx)) hp
        (by rwa [List.length_set])
    · simp only [List.map_cons, List.mem_cons] at hmem
      rcases hmem with h | h
      · subst h
        rw [scatter_get_of_not_mem _ _ _ hp, hc w (List.mem_cons_self _ _)]
        simp [List.get?_eq_getElem?, List.getElem?_set_self', hlt]
      · exact absurd h hp

/-! ## nnz_compress (`rocsparse_nnz_compress_template`) -/

/-- The kernel-variant selection of `rocsparse_nnz_compress_template`
(lines 137-333): the segment size (the SEGMENT_SIZE template argument of
the launched `nnz_compress_kernel`) chosen from the wavefront width and
the mean non-zeros per row; `none` when the wavefront width is neither
32 nor 64 (the `rocsparse_status_arch_mismatch` branch). -/
def nnzCompressSegment (wavefrontSize : Int) (meanNnzPerRow : Int) : Option Int :=
  if wavefrontSize = 32 then
    some (if meanNnzPerRow < 4 then 2
      else if meanNnzPerRow < 8 then 4
      else if meanNnzPerRow < 16 then 8
      else if meanNnzPerRow < 32 then 16
      else 32)
  else if wavefrontSize = 64 then
    some (if meanNnzPerRow < 4 then 2
      else if meanNnzPerRow < 8 then 4
      else if meanNnzPerRow < 16 then 8
      else if meanNnzPerRow < 32 then 16
      else if meanNnzPerRow < 64 then 32
      else 64)
  else
    none

/-- Modelled from the spec: the device kernel `nnz_compress_kernel`
(`nnz_compress_device.h`, which is not among the sources) counts, for one
CSR row `i`, the entries whose magnitude is strictly greater than the
tolerance; its entries are `csr_val_A[k]` for `k` ranging over
`[csr_row_ptr_A[i] - base, csr_row_ptr_A[i+1] - base)`. -/
def nnzCompressRowCount (rowPtr val : List Int) (base tol : Int) (i : Nat) : Int :=
  let s := (rowPtr.getD i 0 - base).toNat
  let e := (rowPtr.getD (i + 1) 0 - base).toNat
  ((List.range' s (e - s)).filter (fun k => tol < |val.getD k 0|)).length

/-- The observable outcome of one `rocsparse_nnz_compress_template` call:
the returned status, the per-row counts written to `nnz_per_row`, the
scalar write to `nnz_C`, and the SEGMENT_SIZE of the launched kernel
variant (`none` when no kernel was launched). -/
structure NnzCompressResult where
  status : Status
  nnzPerRowOut : Option (List Int)
  nnzCWrite : Option ScalarWrite
  segmentSize : Option Int
deriving DecidableEq, Repr

/-- `rocsparse_nnz_compress_template` (rocsparse_nnz_compress.hpp lines
38-379).  Null-able pointer arguments are `Option`s (`none` = `nullptr`);
the two output pointers are modelled by whether they are null plus the
value the call stores through them.  `tolRe`/`tolIm` are the real and
imaginary parts of the tolerance (`tolIm = 0` for the real-typed
instantiations); the validation uses `std::real(tol)` only.  The
`rocprim::reduce` of the per-row counts is the external reduction
collaborator, modelled as the list sum; HIP runtime calls succeed. -/
def rocsparse_nnz_compress (handle : Option Handle) (m : Int) (descrA : Option MatDescr)
    (csrValA : Option (List Int)) (csrRowPtrA : Option (List Int))
    (nnzPerRowNonNull : Bool) (nnzCNonNull : Bool) (tolRe tolIm : Int) :
    NnzCompressResult :=
  match handle with
  | none => ⟨Status.invalid_handle, none, none, none⟩
  | some h =>
    match descrA with
    | none => ⟨Status.invalid_pointer, none, none, none⟩
    | some descr =>
      if m < 0 then ⟨Status.invalid_size, none, none, none⟩
      else if tolRe < 0 then ⟨Status.invalid_value, none, none, none⟩
      else if m = 0 then
        ⟨Status.success, none,
          if nnzCNonNull then some ⟨h.pointerModeDevice, 0⟩ else none, none⟩
      else
        match csrValA with
        | none => ⟨Status.invalid_pointer, none, none, none⟩
        | some val =>
          match csrRowPtrA with
          | none => ⟨Status.invalid_pointer, none, none, none⟩
          | some rowPtr =>
            if nnzPerRowNonNull = false then ⟨Status.invalid_pointer, none, none, none⟩
            else if nnzCNonNull = false then ⟨Status.invalid_pointer, none, none, none⟩
            else
              let nnzA : Int := rowPtr.getD m.toNat 0
              let meanNnzPerRow : Int := Int.div nnzA m
              match nnzCompressSegment h.wavefrontSize meanNnzPerRow with
              | none => ⟨Status.arch_mismatch, none, none, none⟩
              | some seg =>
                let counts :=
                  (List.range m.toNat).map (nnzCompressRowCount rowPtr val descr.base tolRe)
                ⟨Status.success, some counts,
                  some ⟨h.pointerModeDevice, counts.sum⟩, some seg⟩

/-! ## Dense nnz counting (`rocsparse_nnz_impl`) -/

/-- Modelled from the spec: `rocsparse_nnz_template` (rocsparse_nnz.hpp,
which is not among the sources) scans the column-major dense buffer `A`
of leading dimension `ld` in one parallel pass and writes the count of
non-zero entries of each of the `m` rows (direction row) or each of the
`n` columns (direction column). -/
def nnzPerRowColumns (dirRow : Bool) (m n ld : Nat) (A : List Int) : List Int :=
  if dirRow then
    (List.range m).map (fun i =>
      ((List.range n).filter (fun j => A.getD (i + ld * j) 0 ≠ 0)).length)
  else
    (List.range n).map (fun j =>
      ((List.range m).filter (fun i => A.getD (i + ld * j) 0 ≠ 0)).length)

/-- The observable outcome of one `rocsparse_nnz_impl` call: the returned
status, the per-row/column counts written to `nnz_per_row_columns`, and
the scalar write to `nnz_total_dev_host_ptr`. -/
structure NnzResult where
  status : Status
  nnzPerRowColumnsOut : Option (List Int)
  nnzTotalWrite : Option ScalarWrite
deriving DecidableEq, Repr

/-- `rocsparse_nnz_impl` (src/unnamed/part_000 lines 34-218).  Null-able
pointers are `Option`s; the per-row/column output pointer is modelled by
its null flag plus the list written through it, the total output by its
null flag plus the scalar write.  The `rocprim::reduce` over the first
`m` (direction row) or `n` (direction column) counts is modelled as the
list sum; HIP runtime calls succeed. -/
def rocsparse_nnz_impl (handle : Option Handle) (dir : Int) (m n : Int)
    (descr : Option MatDescr) (A : Option (List Int)) (ld : Int)
    (nnzPerRowColumnsNonNull : Bool) (nnzTotalNonNull : Bool) : NnzResult :=
  match handle with
  | none => ⟨Status.invalid_handle, none, none⟩
  | some h =>
    if rocsparse_direction_row ≠ dir ∧ rocsparse_direction_column ≠ dir then
      ⟨Status.invalid_value, none, none⟩
    else if m < 0 ∨ n < 0 ∨ ld < m then ⟨Status.invalid_size, none, none⟩
    else if m = 0 ∨ n = 0 then
      ⟨Status.success, none,
        if nnzTotalNonNull then some ⟨h.pointerModeDevice, 0⟩ else none⟩
    else
      match descr, A with
      | some d, some a =>
        if nnzPerRowColumnsNonNull = false ∨ nnzTotalNonNull = false then
          ⟨Status.invalid_pointer, none, none⟩
        else if d.type ≠ rocsparse_matrix_type_general then
          ⟨Status.not_implemented, none, none⟩
        else
          let counts :=
            nnzPerRowColumns (dir = rocsparse_direction_row) m.toNat n.toNat ld.toNat a
          ⟨Status.success, some counts, some ⟨h.pointerModeDevice, counts.sum⟩⟩
      | _, _ => ⟨Status.invalid_pointer, none, none⟩

/-! ## csx2dense (`rocsparse_csx2dense_impl` / `rocsparse_csx2dense_template`) -/

/-- The stores performed by `hipMemset2DAsync(A, lda*sizeof(T), 0,
m*sizeof(T), n, stream)` (rocsparse_csx2dense_impl.hpp line 113): value 0
at every position `i + ld * j` of the column-major buffer, `i < m`,
`j < n`. -/
def memset2DWrites (ld m n : Nat) : List (Nat × Int) :=
  (List.range n).bind (fun j => (List.range m).map (fun i => (i + ld * j, (0 : Int))))

/-- Modelled from the spec: the scatter kernels `csr2dense_kernel` /
`csc2dense_kernel` (`csx2dense_device.h`, which is not among the sources)
write each compressed entry to its dense coordinate in the column-major
buffer of leading dimension `ld`: in the row-oriented direction, row `i`
holds values `csx_val[k]` at column `csx_col_row_ind[k] - base` for `k`
in `[csx_row_col_ptr[i] - base, csx_row_col_ptr[i+1] - base)`; in the
column-oriented direction the roles of row and column are exchanged. -/
def csxScatterWrites (dirRow : Bool) (m n ld : Nat) (base : Int)
    (ptr ind val : List Int) : List (Nat × Int) :=
  (List.range (if dirRow then m else n)).bind (fun i =>
    let s := (ptr.getD i 0 - base).toNat
    let e := (ptr.getD (i + 1) 0 - base).toNat
    (List.range' s (e - s)).map (fun k =>
      let j := (ind.getD k 0 - base).toNat
      (if dirRow then i + ld * j else j + ld * i, val.getD k 0)))

/-- The observable outcome of one `rocsparse_csx2dense_impl` call: the
returned status and the dense buffer behind `A` after the call (`none`
models a null `A`; an untouched buffer comes back unchanged). -/
structure Csx2DenseResult where
  status : Status
  buf : Option (List Int)
deriving DecidableEq, Repr

/-- `rocsparse_csx2dense_impl` (rocsparse_csx2dense_impl.hpp lines
31-120) followed by `rocsparse_csx2dense_template`
(rocsparse_csx2dense.hpp lines 26-97).  `dirRow` is the DIRA template
argument (`true` = `rocsparse_direction_row`).  On the full path the
buffer is first zero-filled by `hipMemset2DAsync` and then written by the
scatter kernel. -/
def rocsparse_csx2dense_impl (dirRow : Bool) (handle : Option Handle) (m n : Int)
    (descr : Option MatDescr) (csxVal : Option (List Int))
    (csxRowColPtr : Option (List Int)) (csxColRowInd : Option (List Int))
    (A : Option (List Int)) (lda : Int) : Csx2DenseResult :=
  match handle with
  | none => ⟨Status.invalid_handle, A⟩
  | some _ =>
    if m < 0 ∨ n < 0 ∨ lda < m then ⟨Status.invalid_size, A⟩
    else if m = 0 ∨ n = 0 then ⟨Status.success, A⟩
    else
      match descr, A, csxRowColPtr, csxColRowInd, csxVal with
      | some d, some buf, some ptr, some ind, some val =>
        if d.type ≠ rocsparse_matrix_type_general then ⟨Status.not_implemented, some buf⟩
        else
          ⟨Status.success, some (scatter
            (scatter buf (memset2DWrites lda.toNat m.toNat n.toNat))
            (csxScatterWrites dirRow m.toNat n.toNat lda.toNat d.base ptr ind val))⟩
      | _, _, _, _, _ => ⟨Status.invalid_pointer, A⟩

/-! ## csr2csc permute kernel (`csr2csc_permute_kernel`) -/

/-- The stores of `csr2csc_permute_kernel` (csr2csc_device.h lines
31-49) to one of its two output arrays from source array `src`: the grid
runs `nthreads` lanes; lane `gid` returns without writing when
`gid >= nnz`, and otherwise stores `src[map[gid]]` at position `gid`. -/
def csr2cscPermuteWrites (nthreads nnz : Nat) (src map : List Int) : List (Nat × Int) :=
  (List.range nthreads).filterMap (fun gid =>
    if gid < nnz then some (gid, src.getD (map.getD gid 0).toNat 0) else none)

/-- One launch of `csr2csc_permute_kernel` over `nthreads` lanes: gathers
`in1` and `in2` through the permutation `map` into `out1` and `out2`. -/
def csr2csc_permute_kernel (nthreads nnz : Nat) (in1 in2 map out1 out2 : List Int) :
    List Int × List Int :=
  (scatter out1 (csr2cscPermuteWrites nthreads nnz in1 map),
   scatter out2 (csr2cscPermuteWrites nthreads nnz in2 map))

/-! ## Claim theorems -/

/-- C2: for a dense nnz-counting call with a valid handle, a valid
direction, non-negative dimensions and `ld >= m`, a zero dimension
short-circuits to success with the total forced to zero, written through
the total output pointer respecting pointer mode when that pointer is
non-null; the early return precedes every pointer-null check, so the
descriptor, the dense input and the per-row output may all be null. -/
theorem nnz_degenerate_early_success (h : Handle) (dir m n ld : Int)
    (descr : Option MatDescr) (A : Option (List Int))
    (perRowNonNull totalNonNull : Bool)
    (hdir : dir = rocsparse_direction_row ∨ dir = rocsparse_direction_column)
    (hm : 0 ≤ m) (hn : 0 ≤ n) (hld : m ≤ ld) (hdeg : m = 0 ∨ n = 0) :
    rocsparse_nnz_impl (some h) dir m n descr A ld perRowNonNull totalNonNull =
      ⟨Status.success, none,
        if totalNonNull then some ⟨h.pointerModeDevice, 0⟩ else none⟩ := by
  have hc1 : ¬(rocsparse_direction_row ≠ dir ∧ rocsparse_direction_column ≠ dir) := by
    rcases hdir with h1 | h1 <;> simp [h1]
  have hc2 : ¬(m < 0 ∨ n < 0 ∨ ld < m) := by omega
  simp [rocsparse_nnz_impl, hc1, hc2, hdeg]

theorem nnz_degenerate_early_success_witness :
    rocsparse_nnz_impl (some ⟨true, 64, 0⟩) 1 0 5 none none 0 false true =
      ⟨Status.success, none, some ⟨true, 0⟩⟩ := by
  have := nnz_degenerate_early_success ⟨true, 64, 0⟩ 1 0 5 0 none none false true
    (Or.inr rfl) (by decide) (by decide) (by decide) (Or.inl rfl)
  simpa using this

/-- C9: for a dense nnz-counting call with a non-null handle and a
direction that is neither row nor column, the call returns invalid-value
whatever `m`, `n` and `ld` are: the direction check precedes both the
size check and the zero-dimension early success. -/
theorem nnz_invalid_direction (h : Handle) (dir m n ld : Int)
    (descr : Option MatDescr) (A : Option (List Int))
    (perRowNonNull totalNonNull : Bool)
    (hdir1 : dir ≠ rocsparse_direction_row) (hdir2 : dir ≠ rocsparse_direction_column) :
    rocsparse_nnz_impl (some h) dir m n descr A ld perRowNonNull totalNonNull =
      ⟨Status.invalid_value, none, none⟩ := by
  simp [rocsparse_nnz_impl, Ne.symm hdir1, Ne.symm hdir2]

theorem nnz_invalid_direction_witness :
    rocsparse_nnz_impl (some ⟨false, 64, 0⟩) 7 0 5 none none 0 false true =
      ⟨Status.invalid_value, none, none⟩ :=
  nnz_invalid_direction ⟨false, 64, 0⟩ 7 0 5 0 none none false true
    (by decide) (by decide)

/-- C5: `nnz_compress` validates its arguments in exactly this order,
each failing check returning its status before the later checks run:
null handle (invalid-handle), null descriptor (invalid-pointer), negative
row count (invalid-size), negative tolerance (invalid-value), zero-row
early success writing 0 to the total output respecting pointer mode, then
null-pointer checks on the value, row-offset, per-row-output and
total-output arrays (invalid-pointer). -/
theorem nnz_compress_validation_order (handle : Option Handle) (m : Int)
    (descrA : Option MatDescr) (csrValA csrRowPtrA : Option (List Int))
    (perRowNonNull nnzCNonNull : Bool) (tolRe tolIm : Int) :
    (handle = none →
      rocsparse_nnz_compress handle m descrA csrValA csrRowPtrA perRowNonNull
          nnzCNonNull tolRe tolIm = ⟨Status.invalid_handle, none, none, none⟩)
  ∧ (handle ≠ none → descrA = none →
      rocsparse_nnz_compress handle m descrA csrValA csrRowPtrA perRowNonNull
          nnzCNonNull tolRe tolIm = ⟨Status.invalid_pointer, none, none, none⟩)
  ∧ (handle ≠ none → descrA ≠ none → m < 0 →
      rocsparse_nnz_compress handle m descrA csrValA csrRowPtrA perRowNonNull
          nnzCNonNull tolRe tolIm = ⟨Status.invalid_size, none, none, none⟩)
  ∧ (handle ≠ none → descrA ≠ none → 0 ≤ m → tolRe < 0 →
      rocsparse_nnz_compress handle m descrA csrValA csrRowPtrA perRowNonNull
          nnzCNonNull tolRe tolIm = ⟨Status.invalid_value, none, none, none⟩)
  ∧ (∀ h, handle = some h → descrA ≠ none → 0 ≤ tolRe → m = 0 →
      rocsparse_nnz_compress handle m descrA csrValA csrRowPtrA perRowNonNull
          nnzCNonNull tolRe tolIm =
        ⟨Status.success, none,
          if nnzCNonNull then some ⟨h.pointerModeDevice, 0⟩ else none, none⟩)
  ∧ (handle ≠ none → descrA ≠ none → 0 < m → 0 ≤ tolRe → csrValA = none →
      rocsparse_nnz_compress handle m descrA csrValA csrRowPtrA perRowNonNull
          nnzCNonNull tolRe tolIm = ⟨Status.invalid_pointer, none, none, none⟩)
  ∧ (handle ≠ none → descrA ≠ none → 0 < m → 0 ≤ tolRe → csrValA ≠ none →
      csrRowPtrA = none →
      rocsparse_nnz_compress handle m descrA csrValA csrRowPtrA perRowNonNull
          nnzCNonNull tolRe tolIm = ⟨Status.invalid_pointer, none, none, none⟩)
  ∧ (handle ≠ none → descrA ≠ none → 0 < m → 0 ≤ tolRe → csrValA ≠ none →
      csrRowPtrA ≠ none → perRowNonNull = false →
      rocsparse_nnz_compress handle m descrA csrValA csrRowPtrA perRowNonNull
          nnzCNonNull tolRe tolIm = ⟨Status.invalid_pointer, none, none, none⟩)
  ∧ (handle ≠ none → descrA ≠ none → 0 < m → 0 ≤ tolRe → csrValA ≠ none →
      csrRowPtrA ≠ none → perRowNonNull = true → nnzCNonNull = false →
      rocsparse_nnz_compress handle m descrA csrValA csrRowPtrA perRowNonNull
          nnzCNonNull tolRe tolIm = ⟨Status.invalid_pointer, none, none, none⟩) := by
  refine ⟨?_, ?_, ?_, ?_, ?_, ?_, ?_, ?_, ?_⟩
  · rintro rfl
    rfl
  · rintro hh rfl
    rcases handle with _ | h
    · exact absurd rfl hh
    · rfl
  · intro hh hd hm
    rcases handle with _ | h
    · exact absurd rfl hh
    rcases descrA with _ | d
    · exact absurd rfl hd
    simp [rocsparse_nnz_compress, hm]
  · intro hh hd hm htol
    rcases handle with _ | h
    · exact absurd rfl hh
    rcases descrA with _ | d
    · exact absurd rfl hd
    have hm' : ¬ m < 0 := by omega
    simp [rocsparse_nnz_compress, hm', htol]
  · rintro h rfl hd htol hm
    rcases descrA with _ | d
    · exact absurd rfl hd
    have htol' : ¬ tolRe < 0 := by omega
    simp [rocsparse_nnz_compress, htol', hm]
  · intro hh hd hm htol hv
    rcases handle with _ | h
    · exact absurd rfl hh
    rcases descrA with _ | d
    · exact absurd rfl hd
    subst hv
    have hm' : ¬ m < 0 := by omega
    have hm0 : ¬ m = 0 := by omega
    have htol' : ¬ tolRe < 0 := by omega
    simp [rocsparse_nnz_compress, hm', hm0, htol']
  · intro hh hd hm htol hv hp
    rcases handle with _ | h
    · exact absurd rfl hh
    rcases descrA with _ | d
    · exact absurd rfl hd
    rcases csrValA with _ | v
    · exact absurd rfl hv
    subst hp
    have hm' : ¬ m < 0 := by omega
    have hm0 : ¬ m = 0 := by omega
    have htol' : ¬ tolRe < 0 := by omega
    simp [rocsparse_nnz_compress, hm', hm0, htol']
  · intro hh hd hm htol hv hp hf
    rcases handle with _ | h
    · exact absurd rfl hh
    rcases descrA with _ | d
    · exact absurd rfl hd
    rcases csrValA with _ | v
    · exact absurd rfl hv
    rcases csrRowPtrA with _ | p
    · exact absurd rfl hp
    subst hf
    have hm' : ¬ m < 0 := by omega
    have hm0 : ¬ m = 0 := by omega
    have htol' : ¬ tolRe < 0 := by omega
    simp [rocsparse_nnz_compress, hm', hm0, htol']
  · intro hh hd hm htol hv hp hf1 hf2
    rcases handle with _ | h
    · exact absurd rfl hh
    rcases descrA with _ | d
    · exact absurd rfl hd
    rcases csrValA with _ | v
    · exact absurd rfl hv
    rcases csrRowPtrA with _ | p
    · exact absurd rfl hp
    subst hf1
    subst hf2
    have hm' : ¬ m < 0 := by omega
    have hm0 : ¬ m = 0 := by omega
    have htol' : ¬ tolRe < 0 := by omega
    simp [rocsparse_nnz_compress, hm', hm0, htol']

theorem nnz_compress_validation_order_witness :
    rocsparse_nnz_compress (some ⟨false, 64, 0⟩) 0 (some ⟨0, 0⟩) none none
        false true 1 0 = ⟨Status.success, none, some ⟨false, 0⟩, none⟩ := by
  have := (nnz_compress_validation_order (some ⟨false, 64, 0⟩) 0 (some ⟨0, 0⟩)
    none none false true 1 0).2.2.2.2.1 ⟨false, 64, 0⟩ rfl (by decide) (by decide) rfl
  simpa using this

/-- The wavefront widths with a kernel variant are exactly 32 and 64. -/
theorem nnzCompressSegment_eq_none (wf mean : Int) :
    nnzCompressSegment wf mean = none ↔ wf ≠ 32 ∧ wf ≠ 64 := by
  by_cases h1 : wf = 32
  · simp [nnzCompressSegment, h1]
  · by_cases h2 : wf = 64 <;> simp [nnzCompressSegment, h1, h2]

/-- Evaluation of `rocsparse_nnz_compress_template` past all validation:
with everything non-null, `m > 0` and a non-negative tolerance the call
reaches kernel selection, and either reports arch-mismatch or launches
the selected variant and reduces the per-row counts. -/
theorem rocsparse_nnz_compress_full_path (h : Handle) (m : Int) (d : MatDescr)
    (val ptr : List Int) (tolRe tolIm : Int) (hm : 0 < m) (htol : 0 ≤ tolRe) :
    rocsparse_nnz_compress (some h) m (some d) (some val) (some ptr) true true
        tolRe tolIm =
      match nnzCompressSegment h.wavefrontSize
          (Int.div (ptr.getD m.toNat 0) m) with
      | none => ⟨Status.arch_mismatch, none, none, none⟩
      | some seg =>
        ⟨Status.success,
          some ((List.range m.toNat).map (nnzCompressRowCount ptr val d.base tolRe)),
          some ⟨h.pointerModeDevice,
            ((List.range m.toNat).map (nnzCompressRowCount ptr val d.base tolRe)).sum⟩,
          some seg⟩ := by
  have hm' : ¬ m < 0 := by omega
  have hm0 : ¬ m = 0 := by omega
  have htol' : ¬ tolRe < 0 := by omega
  simp only [rocsparse_nnz_compress]
  rw [if_neg hm', if_neg htol', if_neg hm0, if_neg (by decide : ¬(true = false)),
    if_neg (by decide : ¬(true = false))]

/-- C10: with a non-null handle, a non-null descriptor and a non-negative
row count, `nnz_compress` returns invalid-value exactly when the real
part of the tolerance is negative; the imaginary part never matters, so a
complex tolerance with non-negative real part is accepted. -/
theorem nnz_compress_tol_real_part (h : Handle) (m : Int) (d : MatDescr)
    (csrValA csrRowPtrA : Option (List Int)) (perRowNonNull nnzCNonNull : Bool)
    (tolRe tolIm : Int) (hm : 0 ≤ m) :
    (rocsparse_nnz_compress (some h) m (some d) csrValA csrRowPtrA perRowNonNull
        nnzCNonNull tolRe tolIm).status = Status.invalid_value ↔ tolRe < 0 := by
  have hm' : ¬ m < 0 := by omega
  by_cases htol : tolRe < 0
  · simp [rocsparse_nnz_compress, hm', htol]
  · simp only [rocsparse_nnz_compress, hm', if_false, htol]
    by_cases hm0 : m = 0
    · simp [hm0]
    rcases csrValA with _ | v
    · simp [hm0]
    rcases csrRowPtrA with _ | p
    · simp [hm0]
    rcases perRowNonNull with _ | _
    · simp [hm0]
    rcases nnzCNonNull with _ | _
    · simp [hm0]
    simp only [hm0, if_false]
    rcases hseg : nnzCompressSegment h.wavefrontSize
        (Int.div (p.getD m.toNat 0) m) with _ | seg <;>
      simp [hseg, htol]

theorem nnz_compress_tol_real_part_witness :
    ((rocsparse_nnz_compress (some ⟨false, 64, 0⟩) 1 (some ⟨0, 0⟩) (some [3])
        (some [0, 1]) true true 2 (-5)).status = Status.invalid_value ↔ (2 : Int) < 0)
    ∧ (rocsparse_nnz_compress (some ⟨false, 64, 0⟩) 1 (some ⟨0, 0⟩) (some [3])
        (some [0, 1]) true true 2 (-5)).status = Status.success :=
  ⟨nnz_compress_tol_real_part ⟨false, 64, 0⟩ 1 ⟨0, 0⟩ (some [3]) (some [0, 1])
      true true 2 (-5) (by decide), by decide⟩

/-- C8: an `nnz_compress` call that passes argument validation with
`m > 0` returns arch-mismatch exactly when the handle's wavefront width
is neither 32 nor 64; moreover no call whatsoever on a handle whose
wavefront width is 32 or 64 ever returns arch-mismatch. -/
theorem nnz_compress_arch_mismatch (h : Handle) (m : Int) (d : MatDescr)
    (val ptr : List Int) (tolRe tolIm : Int) (hm : 0 < m) (htol : 0 ≤ tolRe) :
    ((rocsparse_nnz_compress (some h) m (some d) (some val) (some ptr) true true
        tolRe tolIm).status = Status.arch_mismatch ↔
      h.wavefrontSize ≠ 32 ∧ h.wavefrontSize ≠ 64)
  ∧ (∀ (handle : Option Handle) (m' : Int) (descrA : Option MatDescr)
      (v p : Option (List Int)) (f1 f2 : Bool) (tr ti : Int) (h' : Handle),
      handle = some h' → h'.wavefrontSize = 32 ∨ h'.wavefrontSize = 64 →
      (rocsparse_nnz_compress handle m' descrA v p f1 f2 tr ti).status ≠
        Status.arch_mismatch) := by
  constructor
  · rw [rocsparse_nnz_compress_full_path h m d val ptr tolRe tolIm hm htol]
    rcases hseg : nnzCompressSegment h.wavefrontSize
        (Int.div (ptr.getD m.toNat 0) m) with _ | seg
    · rw [nnzCompressSegment_eq_none] at hseg
      simp [hseg]
    · have hsome : nnzCompressSegment h.wavefrontSize
          (Int.div (ptr.getD m.toNat 0) m) ≠ none := by rw [hseg]; simp
      constructor
      · intro hcontra
        exact absurd hcontra (by simp)
      · intro hcontra
        exact absurd ((nnzCompressSegment_eq_none _ _).mpr hcontra) hsome
  · rintro handle m' descrA v p f1 f2 tr ti h' rfl hwf
    rcases descrA with _ | dd
    · simp [rocsparse_nnz_compress]
    rcases v with _ | vv <;> rcases p with _ | pp <;>
      rcases f1 with _ | _ <;> rcases f2 with _ | _ <;>
      by_cases hc1 : m' < 0 <;> by_cases hc2 : tr < 0 <;> by_cases hc3 : m' = 0 <;>
      rcases hwf with hwf' | hwf' <;>
      simp [rocsparse_nnz_compress, nnzCompressSegment, hc1, hc2, hc3, hwf']

theorem nnz_compress_arch_mismatch_witness :
    ((rocsparse_nnz_compress (some ⟨false, 48, 0⟩) 1 (some ⟨0, 0⟩) (some [3])
        (some [0, 1]) true true 0 0).status = Status.arch_mismatch ↔
      (48 : Int) ≠ 32 ∧ (48 : Int) ≠ 64)
    ∧ (rocsparse_nnz_compress (some ⟨false, 48, 0⟩) 1 (some ⟨0, 0⟩) (some [3])
        (some [0, 1]) true true 0 0).status = Status.arch_mismatch
    ∧ (rocsparse_nnz_compress (some ⟨false, 32, 0⟩) (-7) none none none false false
        0 0).status ≠ Status.arch_mismatch := by
  refine ⟨(nnz_compress_arch_mismatch ⟨false, 48, 0⟩ 1 ⟨0, 0⟩ [3] [0, 1] 0 0
    (by decide) (by decide)).1, by decide, ?_⟩
  exact (nnz_compress_arch_mismatch ⟨false, 48, 0⟩ 1 ⟨0, 0⟩ [3] [0, 1] 0 0
    (by decide) (by decide)).2 (some ⟨false, 32, 0⟩) (-7) none none none false false
    0 0 ⟨false, 32, 0⟩ rfl (Or.inl rfl)

/-- Supported wavefront widths always select some kernel variant. -/
theorem nnzCompressSegment_eq_some (wf mean : Int) (hwf : wf = 32 ∨ wf = 64) :
    ∃ s, nnzCompressSegment wf mean = some s := by
  rcases hwf with h | h <;> subst h <;> simp [nnzCompressSegment]

/-- Evaluation of `rocsparse_nnz_impl` past all validation: with a valid
direction, positive dimensions, `ld >= m`, a general-type descriptor and
everything non-null, the per-row/column counts are produced and their sum
is written as the total, respecting pointer mode. -/
theorem rocsparse_nnz_impl_full_path (h : Handle) (dir m n ld : Int)
    (d : MatDescr) (a : List Int)
    (hdir : dir = rocsparse_direction_row ∨ dir = rocsparse_direction_column)
    (hm : 0 < m) (hn : 0 < n) (hld : m ≤ ld)
    (htype : d.type = rocsparse_matrix_type_general) :
    rocsparse_nnz_impl (some h) dir m n (some d) (some a) ld true true =
      ⟨Status.success,
        some (nnzPerRowColumns (dir = rocsparse_direction_row) m.toNat n.toNat ld.toNat a),
        some ⟨h.pointerModeDevice,
          (nnzPerRowColumns (dir = rocsparse_direction_row) m.toNat n.toNat ld.toNat a).sum⟩⟩ := by
  have hc1 : ¬(rocsparse_direction_row ≠ dir ∧ rocsparse_direction_column ≠ dir) := by
    rcases hdir with h1 | h1 <;> simp [h1]
  have hc2 : ¬(m < 0 ∨ n < 0 ∨ ld < m) := by omega
  have hc3 : ¬(m = 0 ∨ n = 0) := by omega
  simp only [rocsparse_nnz_impl]
  rw [if_neg hc1, if_neg hc2, if_neg hc3,
    if_neg (by decide : ¬((true : Bool) = false ∨ (true : Bool) = false)),
    if_neg (not_not_intro htype)]

/-- C3: on every successful full-path call, the aggregate total reported
by the dense nnz-counting operation is the sum of the per-row (or
per-column) counts it produced, and the total reported by `nnz_compress`
is the sum of its per-row surviving-entry counts — in host pointer mode
(`pm = false`) as well as device pointer mode (`pm = true`), and the
totals of the two modes agree. -/
theorem nnz_totals_equal_sum (wf : Int) (bs : Nat) (dir m n ld : Int)
    (d : MatDescr) (a : List Int) (m2 : Int) (d2 : MatDescr)
    (val2 ptr2 : List Int) (tolRe tolIm : Int)
    (hdir : dir = rocsparse_direction_row ∨ dir = rocsparse_direction_column)
    (hm : 0 < m) (hn : 0 < n) (hld : m ≤ ld)
    (htype : d.type = rocsparse_matrix_type_general)
    (hm2 : 0 < m2) (htol : 0 ≤ tolRe) (hwf : wf = 32 ∨ wf = 64) :
    (∀ pm : Bool,
      (rocsparse_nnz_impl (some ⟨pm, wf, bs⟩) dir m n (some d) (some a) ld
          true true).status = Status.success
      ∧ ∃ counts,
          (rocsparse_nnz_impl (some ⟨pm, wf, bs⟩) dir m n (some d) (some a) ld
              true true).nnzPerRowColumnsOut = some counts
        ∧ (rocsparse_nnz_impl (some ⟨pm, wf, bs⟩) dir m n (some d) (some a) ld
              true true).nnzTotalWrite = some ⟨pm, counts.sum⟩)
  ∧ Option.map ScalarWrite.value
        (rocsparse_nnz_impl (some ⟨false, wf, bs⟩) dir m n (some d) (some a) ld
          true true).nnzTotalWrite
      = Option.map ScalarWrite.value
        (rocsparse_nnz_impl (some ⟨true, wf, bs⟩) dir m n (some d) (some a) ld
          true true).nnzTotalWrite
  ∧ (∀ pm : Bool,
      (rocsparse_nnz_compress (some ⟨pm, wf, bs⟩) m2 (some d2) (some val2)
          (some ptr2) true true tolRe tolIm).status = Status.success
      ∧ ∃ counts,
          (rocsparse_nnz_compress (some ⟨pm, wf, bs⟩) m2 (some d2) (some val2)
              (some ptr2) true true tolRe tolIm).nnzPerRowOut = some counts
        ∧ (rocsparse_nnz_compress (some ⟨pm, wf, bs⟩) m2 (some d2) (some val2)
              (some ptr2) true true tolRe tolIm).nnzCWrite = some ⟨pm, counts.sum⟩)
  ∧ Option.map ScalarWrite.value
        (rocsparse_nnz_compress (some ⟨false, wf, bs⟩) m2 (some d2) (some val2)
          (some ptr2) true true tolRe tolIm).nnzCWrite
      = Option.map ScalarWrite.value
        (rocsparse_nnz_compress (some ⟨true, wf, bs⟩) m2 (some d2) (some val2)
          (some ptr2) true true tolRe tolIm).nnzCWrite := by
  have hdense : ∀ pm : Bool,
      rocsparse_nnz_impl (some ⟨pm, wf, bs⟩) dir m n (some d) (some a) ld true true =
        ⟨Status.success,
          some (nnzPerRowColumns (dir = rocsparse_direction_row) m.toNat n.toNat ld.toNat a),
          some ⟨pm,
            (nnzPerRowColumns (dir = rocsparse_direction_row) m.toNat n.toNat ld.toNat a).sum⟩⟩ :=
    fun pm => rocsparse_nnz_impl_full_path ⟨pm, wf, bs⟩ dir m n ld d a hdir hm hn hld htype
  obtain ⟨s, hs⟩ := nnzCompressSegment_eq_some wf
    (Int.div (ptr2.getD m2.toNat 0) m2) hwf
  have hcomp : ∀ pm : Bool,
      rocsparse_nnz_compress (some ⟨pm, wf, bs⟩) m2 (some d2) (some val2)
          (some ptr2) true true tolRe tolIm =
        ⟨Status.success,
          some ((List.range m2.toNat).map (nnzCompressRowCount ptr2 val2 d2.base tolRe)),
          some ⟨pm,
            ((List.range m2.toNat).map (nnzCompressRowCount ptr2 val2 d2.base tolRe)).sum⟩,
          some s⟩ := by
    intro pm
    rw [rocsparse_nnz_compress_full_path ⟨pm, wf, bs⟩ m2 d2 val2 ptr2 tolRe tolIm hm2 htol]
    rw [hs]
  refine ⟨fun pm => ?_, ?_, fun pm => ?_, ?_⟩
  · rw [hdense pm]
    exact ⟨rfl, _, rfl, rfl⟩
  · rw [hdense false, hdense true]
    rfl
  · rw [hcomp pm]
    exact ⟨rfl, _, rfl, rfl⟩
  · rw [hcomp false, hcomp true]
    rfl

theorem nnz_totals_equal_sum_witness :
    (rocsparse_nnz_impl (some ⟨false, 64, 0⟩) 0 2 2 (some ⟨0, 0⟩)
        (some [1, 0, 0, 1]) 2 true true).nnzTotalWrite = some ⟨false, 2⟩
    ∧ (rocsparse_nnz_compress (some ⟨true, 64, 0⟩) 2 (some ⟨0, 0⟩)
        (some [5, 0, 7, 1]) (some [0, 1, 4]) true true 1 0).nnzCWrite = some ⟨true, 2⟩ := by
  have hd := (nnz_totals_equal_sum 64 0 0 2 2 2 ⟨0, 0⟩ [1, 0, 0, 1] 2 ⟨0, 0⟩
    [5, 0, 7, 1] [0, 1, 4] 1 0 (Or.inl rfl) (by decide) (by decide) (by decide) rfl
    (by decide) (by decide) (Or.inr rfl)).1 false
  have hc := ((nnz_totals_equal_sum 64 0 0 2 2 2 ⟨0, 0⟩ [1, 0, 0, 1] 2 ⟨0, 0⟩
    [5, 0, 7, 1] [0, 1, 4] 1 0 (Or.inl rfl) (by decide) (by decide) (by decide) rfl
    (by decide) (by decide) (Or.inr rfl)).2.2.1) true
  obtain ⟨-, counts, hco, hcw⟩ := hd
  obtain ⟨-, counts2, hco2, hcw2⟩ := hc
  constructor
  · rw [hcw]
    have : counts = [1, 1] := by
      have := hco
      rw [show (rocsparse_nnz_impl (some ⟨false, 64, 0⟩) 0 2 2 (some ⟨0, 0⟩)
        (some [1, 0, 0, 1]) 2 true true).nnzPerRowColumnsOut = some [1, 1] from by decide] at this
      exact ((Option.some.injEq _ _).mp this).symm
    rw [this]
    rfl
  · rw [hcw2]
    have : counts2 = [1, 1] := by
      have := hco2
      rw [show (rocsparse_nnz_compress (some ⟨true, 64, 0⟩) 2 (some ⟨0, 0⟩)
        (some [5, 0, 7, 1]) (some [0, 1, 4]) true true 1 0).nnzPerRowOut = some [1, 1] from by decide] at this
      exact ((Option.some.injEq _ _).mp this).symm
    rw [this]
    rfl

/-- C7: a `csx2dense` call with a valid handle whose sizes pass the size
check returns success immediately when either dimension is zero, leaving
the dense buffer untouched, before any null-pointer validation: the
descriptor, value, offset, index and dense-output pointers may all be
null. -/
theorem csx2dense_quick_return (dirRow : Bool) (h : Handle) (m n : Int)
    (descr : Option MatDescr) (csxVal csxPtr csxInd : Option (List Int))
    (A : Option (List Int)) (lda : Int)
    (hm : 0 ≤ m) (hn : 0 ≤ n) (hld : m ≤ lda) (hdeg : m = 0 ∨ n = 0) :
    rocsparse_csx2dense_impl dirRow (some h) m n descr csxVal csxPtr csxInd A lda
      = ⟨Status.success, A⟩ := by
  have hc1 : ¬(m < 0 ∨ n < 0 ∨ lda < m) := by omega
  simp [rocsparse_csx2dense_impl, hc1, hdeg]

theorem csx2dense_quick_return_witness :
    rocsparse_csx2dense_impl true (some ⟨false, 64, 0⟩) 3 0 none none none none
        (some [9, 9, 9]) 3 = ⟨Status.success, some [9, 9, 9]⟩ :=
  csx2dense_quick_return true ⟨false, 64, 0⟩ 3 0 none none none none
    (some [9, 9, 9]) 3 (by decide) (by decide) (by decide) (Or.inr rfl)

/-- The segment size the spec's words prescribe: the smallest power of
two greater than or equal to `x`, capped at the wavefront width `wf`
(the exponent is the least `e` with `x ≤ 2 ^ e`; some `e ≤ x` always
qualifies). -/
def smallestPow2GeCapped (wf x : Nat) : Nat :=
  min wf (2 ^ (((List.range (x + 1)).filter (fun e => x ≤ 2 ^ e)).headD x))

/-- C1 counterexample: a CSR input with one row and three stored entries
has mean non-zeros per row 3; on a 32-lane wavefront the code selects the
kernel variant with segment size 2, while the smallest power of two
greater than or equal to the mean (capped at 32) is 4. -/
theorem nnz_compress_segment_counterexample :
    (rocsparse_nnz_compress (some ⟨false, 32, 0⟩) 1 (some ⟨0, 0⟩)
        (some [5, 5, 5]) (some [0, 3]) true true 0 0).segmentSize = some 2
  ∧ Int.div (([0, 3] : List Int).getD 1 0) 1 = 3
  ∧ smallestPow2GeCapped 32 3 = 4
  ∧ (2 : Int) ≠ 4 := by
  refine ⟨by decide, by decide, ?_, by decide⟩
  rfl

/-- `nnzCompressSegment` on a 32-lane wavefront, evaluated. -/
theorem nnzCompressSegment_32 (mean : Int) :
    nnzCompressSegment 32 mean = some (if mean < 4 then 2 else if mean < 8 then 4
      else if mean < 16 then 8 else if mean < 32 then 16 else 32) := rfl

/-- `nnzCompressSegment` on a 64-lane wavefront, evaluated. -/
theorem nnzCompressSegment_64 (mean : Int) :
    nnzCompressSegment 64 mean = some (if mean < 4 then 2 else if mean < 8 then 4
      else if mean < 16 then 8 else if mean < 32 then 16
      else if mean < 64 then 32 else 64) := rfl

/-- C1 (amended): for every CSR input with `m > 0` that passes argument
validation on a supported wavefront width, the selected kernel variant's
segment size `s` is a power of two in `[2, wavefront width]` that
satisfies `s ≤ mean` (except for the smallest segment 2, used for every
mean below 4) and `mean < 2·s` (except for the capping segment equal to
the wavefront width) — that is, the largest power of two at most the
mean, clamped below at 2 and capped at the wavefront width, where
`mean` is the truncating quotient of the last row-pointer entry by `m`. -/
theorem nnz_compress_segment_selection (h : Handle) (m : Int) (d : MatDescr)
    (val ptr : List Int) (tolRe tolIm : Int)
    (hm : 0 < m) (htol : 0 ≤ tolRe)
    (hwf : h.wavefrontSize = 32 ∨ h.wavefrontSize = 64) :
    ∃ s, (rocsparse_nnz_compress (some h) m (some d) (some val) (some ptr)
          true true tolRe tolIm).segmentSize = some s
      ∧ (∃ e : Nat, s = 2 ^ e)
      ∧ 2 ≤ s ∧ s ≤ h.wavefrontSize
      ∧ (s ≤ Int.div (ptr.getD m.toNat 0) m ∨ s = 2)
      ∧ (Int.div (ptr.getD m.toNat 0) m < 2 * s ∨ s = h.wavefrontSize) := by
  rw [rocsparse_nnz_compress_full_path h m d val ptr tolRe tolIm hm htol]
  obtain ⟨s, hs⟩ := nnzCompressSegment_eq_some h.wavefrontSize
    (Int.div (ptr.getD m.toNat 0) m) hwf
  rw [hs]
  refine ⟨s, rfl, ?_⟩
  generalize Int.div (ptr.getD m.toNat 0) m = mean at hs ⊢
  rcases hwf with hwf' | hwf' <;> rw [hwf'] at hs <;> rw [hwf']
  · rw [nnzCompressSegment_32] at hs
    injection hs with hs
    subst hs
    split_ifs with h1 h2 h3 h4
    · exact ⟨⟨1, by norm_num⟩, by omega, by omega, by omega, by omega⟩
    · exact ⟨⟨2, by norm_num⟩, by omega, by omega, by omega, by omega⟩
    · exact ⟨⟨3, by norm_num⟩, by omega, by omega, by omega, by omega⟩
    · exact ⟨⟨4, by norm_num⟩, by omega, by omega, by omega, by omega⟩
    · exact ⟨⟨5, by norm_num⟩, by omega, by omega, by omega, by omega⟩
  · rw [nnzCompressSegment_64] at hs
    injection hs with hs
    subst hs
    split_ifs with h1 h2 h3 h4 h5
    · exact ⟨⟨1, by norm_num⟩, by omega, by omega, by omega, by omega⟩
    · exact ⟨⟨2, by norm_num⟩, by omega, by omega, by omega, by omega⟩
    · exact ⟨⟨3, by norm_num⟩, by omega, by omega, by omega, by omega⟩
    · exact ⟨⟨4, by norm_num⟩, by omega, by omega, by omega, by omega⟩
    · exact ⟨⟨5, by norm_num⟩, by omega, by omega, by omega, by omega⟩
    · exact ⟨⟨6, by norm_num⟩, by omega, by omega, by omega, by omega⟩

theorem nnz_compress_segment_selection_witness :
    ∃ s, (rocsparse_nnz_compress (some ⟨false, 32, 0⟩) 1 (some ⟨0, 0⟩)
          (some [5, 5, 5, 5, 5]) (some [0, 5]) true true 0 0).segmentSize = some s
      ∧ (∃ e : Nat, s = 2 ^ e)
      ∧ 2 ≤ s ∧ s ≤ (32 : Int)
      ∧ (s ≤ Int.div (([0, 5] : List Int).getD 1 0) 1 ∨ s = 2)
      ∧ (Int.div (([0, 5] : List Int).getD 1 0) 1 < 2 * s ∨ s = (32 : Int)) :=
  nnz_compress_segment_selection ⟨false, 32, 0⟩ 1 ⟨0, 0⟩ [5, 5, 5, 5, 5] [0, 5]
    0 0 (by decide) (by decide) (Or.inl rfl)

/-- The destinations written by the permute kernel are the lane ids below
`nnz`. -/
theorem csr2cscPermuteWrites_keys (nthreads nnz : Nat) (src map : List Int) :
    (csr2cscPermuteWrites nthreads nnz src map).map Prod.fst
      = (List.range nthreads).filterMap (fun g => if g < nnz then some g else none) := by
  simp [csr2cscPermuteWrites, List.map_filterMap, apply_ite]

theorem csr2cscPermuteWrites_keys_nodup (nthreads nnz : Nat) (src map : List Int) :
    ((csr2cscPermuteWrites nthreads nnz src map).map Prod.fst).Nodup := by
  rw [csr2cscPermuteWrites_keys]
  refine (List.nodup_range nthreads).filterMap ?_
  intro a a' b hb hb'
  by_cases ha : a < nnz <;> by_cases ha' : a' < nnz <;>
    simp [ha, ha', Option.mem_def] at hb hb' <;>
    omega

theorem mem_csr2cscPermuteWrites (nthreads nnz : Nat) (src map : List Int)
    (gid : Nat) (hg : gid < nnz) (hth : nnz ≤ nthreads) :
    (gid, src.getD (map.getD gid 0).toNat 0) ∈ csr2cscPermuteWrites nthreads nnz src map :=
  List.mem_filterMap.mpr
    ⟨gid, List.mem_range.mpr (lt_of_lt_of_le hg hth), by simp [hg]⟩

theorem not_mem_csr2cscPermuteWrites_keys (nthreads nnz : Nat) (src map : List Int)
    (gid : Nat) (hg : nnz ≤ gid) :
    gid ∉ (csr2cscPermuteWrites nthreads nnz src map).map Prod.fst := by
  rw [csr2cscPermuteWrites_keys]
  intro hmem
  obtain ⟨a, _, ha⟩ := List.mem_filterMap.mp hmem
  by_cases h : a < nnz
  · simp only [if_pos h, Option.some.injEq] at ha
    omega
  · simp [if_neg h] at ha

/-- C6: for every lane id `gid < nnz` the permute kernel writes
`out1[gid] = in1[map[gid]]` and `out2[gid] = in2[map[gid]]` — a pure
gather through the precomputed permutation, one lane per non-zero — and
lanes with `gid >= nnz` write nothing, leaving both outputs unchanged at
those positions. -/
theorem csr2csc_permute_gather (nthreads nnz : Nat) (in1 in2 map out1 out2 : List Int)
    (hth : nnz ≤ nthreads) :
    (∀ gid, gid < nnz → gid < out1.length →
        (csr2csc_permute_kernel nthreads nnz in1 in2 map out1 out2).1.get? gid
          = some (in1.getD (map.getD gid 0).toNat 0))
  ∧ (∀ gid, gid < nnz → gid < out2.length →
        (csr2csc_permute_kernel nthreads nnz in1 in2 map out1 out2).2.get? gid
          = some (in2.getD (map.getD gid 0).toNat 0))
  ∧ (∀ gid, nnz ≤ gid →
        (csr2csc_permute_kernel nthreads nnz in1 in2 map out1 out2).1.get? gid
          = out1.get? gid
      ∧ (csr2csc_permute_kernel nthreads nnz in1 in2 map out1 out2).2.get? gid
          = out2.get? gid) := by
  refine ⟨fun gid hg hlen => ?_, fun gid hg hlen => ?_, fun gid hg => ⟨?_, ?_⟩⟩
  · exact scatter_get_of_mem_nodup _ _ _ _
      (csr2cscPermuteWrites_keys_nodup nthreads nnz in1 map)
      (mem_csr2cscPermuteWrites nthreads nnz in1 map gid hg hth) hlen
  · exact scatter_get_of_mem_nodup _ _ _ _
      (csr2cscPermuteWrites_keys_nodup nthreads nnz in2 map)
      (mem_csr2cscPermuteWrites nthreads nnz in2 map gid hg hth) hlen
  · exact scatter_get_of_not_mem _ _ _
      (not_mem_csr2cscPermuteWrites_keys nthreads nnz in1 map gid hg)
  · exact scatter_get_of_not_mem _ _ _
      (not_mem_csr2cscPermuteWrites_keys nthreads nnz in2 map gid hg)

theorem csr2csc_permute_gather_witness :
    (csr2csc_permute_kernel 4 2 [10, 20] [30, 40] [1, 0] [0, 0, 7, 8] [0, 0, 7, 8]).1.get? 0
        = some 20
    ∧ (csr2csc_permute_kernel 4 2 [10, 20] [30, 40] [1, 0] [0, 0, 7, 8] [0, 0, 7, 8]).2.get? 3
        = some 8 := by
  have hth : (2 : Nat) ≤ 4 := by decide
  obtain ⟨h1, h2, h3⟩ := csr2csc_permute_gather 4 2 [10, 20] [30, 40] [1, 0]
    [0, 0, 7, 8] [0, 0, 7, 8] hth
  exact ⟨h1 0 (by decide) (by decide), (h3 3 (by decide)).2⟩

/-- Every store of the 2-D memset writes the value 0. -/
theorem memset2DWrites_value (ld m n : Nat) :
    ∀ w ∈ memset2DWrites ld m n, w.2 = (0 : Int) := by
  intro w hw
  simp only [memset2DWrites, List.mem_bind, List.mem_map] at hw
  obtain ⟨j, -, i, -, rfl⟩ := hw
  rfl

/-- The 2-D memset covers every in-region coordinate of the column-major
buffer. -/
theorem mem_memset2DWrites_keys (ld m n i j : Nat) (hi : i < m) (hj : j < n) :
    i + ld * j ∈ (memset2DWrites ld m n).map Prod.fst := by
  refine List.mem_map.mpr ⟨(i + ld * j, 0), ?_, rfl⟩
  simp only [memset2DWrites, List.mem_bind, List.mem_map]
  exact ⟨j, List.mem_range.mpr hj, i, List.mem_range.mpr hi, rfl⟩

/-- An in-region column-major coordinate lies inside the `ld * n` dense
buffer. -/
theorem dense_coord_lt (ld m n i j : Nat) (hi : i < m) (hj : j < n) (hm : m ≤ ld) :
    i + ld * j < ld * n := by
  have h1 : i + ld * j < ld * (j + 1) := by
    have h2 : ld * (j + 1) = ld * j + ld := by ring
    omega
  have h3 : ld * (j + 1) ≤ ld * n := Nat.mul_le_mul_left ld hj
  omega

/-- C4: a valid `csx2dense` call with `m > 0`, `n > 0` and `lda >= m`
zero-fills the m-by-n region of the dense buffer and then scatters each
compressed entry to its dense coordinate, so an in-region dense entry
carrying a compressed entry equals that entry's stored value, and an
in-region dense entry carrying none equals 0.  (Validity of the
compressed input is the hypothesis that the entries' dense coordinates
are distinct and inside the `lda * n` buffer.) -/
theorem csx2dense_scatter_correct (dirRow : Bool) (h : Handle) (m n lda : Int)
    (d : MatDescr) (ptr ind val buf : List Int)
    (hm : 0 < m) (hn : 0 < n) (hld : m ≤ lda)
    (htype : d.type = rocsparse_matrix_type_general)
    (hbuf : buf.length = lda.toNat * n.toNat)
    (hnd : ((csxScatterWrites dirRow m.toNat n.toNat lda.toNat d.base ptr ind val).map
        Prod.fst).Nodup)
    (hbnd : ∀ w ∈ csxScatterWrites dirRow m.toNat n.toNat lda.toNat d.base ptr ind val,
        w.1 < lda.toNat * n.toNat) :
    ∃ res,
      rocsparse_csx2dense_impl dirRow (some h) m n (some d) (some val) (some ptr)
          (some ind) (some buf) lda = ⟨Status.success, some res⟩
      ∧ ∀ i j, i < m.toNat → j < n.toNat →
          (∀ v, (i + lda.toNat * j, v) ∈
              csxScatterWrites dirRow m.toNat n.toNat lda.toNat d.base ptr ind val →
            res.get? (i + lda.toNat * j) = some v)
        ∧ ((i + lda.toNat * j) ∉
              (csxScatterWrites dirRow m.toNat n.toNat lda.toNat d.base ptr ind val).map
                Prod.fst →
            res.get? (i + lda.toNat * j) = some 0) := by
  have hc1 : ¬(m < 0 ∨ n < 0 ∨ lda < m) := by omega
  have hc2 : ¬(m = 0 ∨ n = 0) := by omega
  have hmle : m.toNat ≤ lda.toNat := Int.toNat_le_toNat hld
  refine ⟨scatter (scatter buf (memset2DWrites lda.toNat m.toNat n.toNat))
    (csxScatterWrites dirRow m.toNat n.toNat lda.toNat d.base ptr ind val), ?_, ?_⟩
  · simp only [rocsparse_csx2dense_impl]
    rw [if_neg hc1, if_neg hc2, if_neg (not_not_intro htype)]
  · intro i j hi hj
    constructor
    · intro v hv
      refine scatter_get_of_mem_nodup _ _ _ _ hnd hv ?_
      rw [scatter_length, hbuf]
      exact hbnd _ hv
    · intro hnot
      rw [scatter_get_of_not_mem _ _ _ hnot]
      refine scatter_get_of_mem_const _ _ _ _ (memset2DWrites_value _ _ _)
        (mem_memset2DWrites_keys lda.toNat m.toNat n.toNat i j hi hj) ?_
      rw [hbuf]
      exact dense_coord_lt lda.toNat m.toNat n.toNat i j hi hj hmle

theorem csx2dense_scatter_correct_witness :
    (∃ res,
      rocsparse_csx2dense_impl true (some ⟨false, 64, 0⟩) 2 2 (some ⟨0, 0⟩)
          (some [1, 1]) (some [0, 1, 2]) (some [0, 1]) (some [7, 7, 7, 7]) 2
        = ⟨Status.success, some res⟩
      ∧ res.get? 0 = some 1 ∧ res.get? 1 = some 0)
    ∧ (rocsparse_csx2dense_impl true (some ⟨false, 64, 0⟩) 2 2 (some ⟨0, 0⟩)
          (some [1, 1]) (some [0, 1, 2]) (some [0, 1]) (some [7, 7, 7, 7]) 2).buf
        = some [1, 0, 0, 1] := by
  constructor
  · obtain ⟨res, heq, hp⟩ := csx2dense_scatter_correct true ⟨false, 64, 0⟩ 2 2 2
      ⟨0, 0⟩ [0, 1, 2] [0, 1] [1, 1] [7, 7, 7, 7] (by decide) (by decide) (by decide)
      rfl (by decide) (by decide) (by decide)
    refine ⟨res, heq, ?_, ?_⟩
    · exact (hp 0 0 (by decide) (by decide)).1 1 (by decide)
    · exact (hp 1 0 (by decide) (by decide)).2 (by decide)
  · decide
